import Mathlib

/-!
Verification development for the piker order-routing / resilient-transport
subsystem.

Shallow embedding of:
* `src/piker/data/_web_bs.py` — the `NoBsWs` auto-reconnecting websocket
  wrapper (`_connect`, `send_msg`, `recv_msg`) and the JSON-RPC multiplexing
  session (`open_jsonrpc_session`: `json_rpc`, `recv_task`);
* `src/piker/clearing/_messages.py` — the clearing message schemas.

Machine integers are modelled as `Int`/`Nat`; Python dicts keyed by ids are
modelled as association lists with replace-on-set semantics; exceptions are
modelled as explicit result constructors.
-/

namespace Piker

/-! ## Resilient duplex channel: `NoBsWs` (`src/piker/data/_web_bs.py`)

`NoBsWs.recon_errors` is the tuple of recoverable transport exceptions
(lines 48-54). -/

/-- The classified-recoverable transport errors of `NoBsWs.recon_errors`:
`ConnectionClosed`, `DisconnectionTimeout`, `ConnectionRejected`,
`HandshakeError`, `ConnectionTimeout`. -/
inductive RecErr
| connectionClosed
| disconnectionTimeout
| connectionRejected
| handshakeError
| connectionTimeout
deriving DecidableEq, Repr

/-- Outcome of the `trio_websocket.open_websocket_url` call of one connect
attempt: the link comes up, or the open raises a recoverable error. -/
inductive LinkOutcome
| up
| fail (e : RecErr)
deriving DecidableEq, Repr

/-- Outcome of running the registered post-connect fixture on one attempt:
it completes cleanly (yielding `None`), raises one of the recoverable
`recon_errors`, or raises any other exception (including the
`AssertionError` from `assert ret is None`). -/
inductive HookOutcome
| ok
| recErr (e : RecErr)
| otherErr
deriving DecidableEq, Repr

/-- The environment's behaviour on one iteration of `_connect`'s retry
loop: what the websocket open does, and what the fixture would do if run. -/
structure Attempt where
  link : LinkOutcome
  hook : HookOutcome
deriving DecidableEq, Repr

/-- Result of the body of one `for i in range(tries)` iteration of
`NoBsWs._connect` (lines 81-105). -/
inductive StepResult
| success
| recFail (e : RecErr)
| fatal
deriving DecidableEq, Repr

/-- One iteration of `_connect`'s attempt loop: open the websocket; if that
raises a recoverable error the attempt fails recoverably.  With the link up
and a fixture registered, the fixture is entered (lines 87-93): a clean run
is success, a recoverable exception makes the attempt fail recoverably
(caught by `except self.recon_errors`), and any other exception propagates
out of `_connect` uncaught.  With no fixture, a raised link is success. -/
def classify (hasFixture : Bool) (a : Attempt) : StepResult :=
  match a.link with
  | .fail e => .recFail e
  | .up =>
    if hasFixture then
      match a.hook with
      | .ok => .success
      | .recErr e => .recFail e
      | .otherErr => .fatal
    else .success

/-- How a `_connect` call terminates: returns the live websocket; raises
`last_err` after the `for` loop exhausts `tries` (line 108); propagates a
non-recoverable fixture exception; or executes `raise None` (only possible
when `tries = 0`, so `last_err` was never set). -/
inductive ConnResult
| connected
| exhausted (e : RecErr)
| fatalHookError
| raiseNone
deriving DecidableEq, Repr

/-- Observable trace of one `_connect` call: how it terminated, how many
attempts the loop made, and the durations (seconds) of the
`trio.sleep(0.5)` calls it performed, in order. -/
structure ConnectTrace where
  result : ConnResult
  attemptsMade : Nat
  sleeps : List ℚ
deriving DecidableEq, Repr

/-- Fixed inter-attempt delay of `_connect`: `trio.sleep(0.5)` (line 104). -/
def reconnectDelay : ℚ := 1 / 2

/-- Default retry budget of `NoBsWs._connect` (`tries: int = 1000`). -/
def defaultConnectTries : Nat := 1000

/-- The attempt loop of `NoBsWs._connect` (lines 80-108), run with
`remaining` iterations left, `i` the index of the next attempt and `last`
the `last_err` local.  A recoverable failure records the error, sleeps
0.5s and continues; success and a non-recoverable fixture error end the
loop at once; when the range is exhausted the code raises `last_err`.
(The preceding `stack.aclose()` retry loop, lines 72-78, is modelled as
completing cleanly.) -/
def connectAux (fix : Bool) (att : Nat → Attempt) :
    Nat → Nat → Option RecErr → ConnectTrace
  | 0, _, last =>
    ⟨match last with
     | some e => .exhausted e
     | none => .raiseNone, 0, []⟩
  | remaining + 1, i, _ =>
    match classify fix (att i) with
    | .success => ⟨.connected, 1, []⟩
    | .recFail e =>
      let t := connectAux fix att remaining (i + 1) (some e)
      ⟨t.result, t.attemptsMade + 1, reconnectDelay :: t.sleeps⟩
    | .fatal => ⟨.fatalHookError, 1, []⟩

/-- `NoBsWs._connect(tries)`: run the attempt loop from attempt 0 with
`last_err = None`. -/
def connect (fix : Bool) (att : Nat → Attempt)
    (tries : Nat := defaultConnectTries) : ConnectTrace :=
  connectAux fix att tries 0 none

/-! ### Send/receive retry loops (`send_msg` lines 110-118, `recv_msg`
lines 120-127)

Both methods run the same `while True` loop: attempt the underlying
websocket operation (`send_message` resp. `get_message`); on a recoverable
error, run `self._connect()` (with its default budget) and retry; whatever
a failed `_connect` raises propagates to the caller. -/

/-- Outcome of one invocation of the underlying websocket operation
(`send_message` / `get_message`). -/
inductive OpOutcome
| ok
| recErr (e : RecErr)
deriving DecidableEq, Repr

/-- How the `send_msg`/`recv_msg` loop ends: the operation succeeded, or a
`_connect` call inside the `except` handler raised and that exception
propagated to the caller. -/
inductive LoopResult
| success
| connectRaise (r : ConnResult)
deriving DecidableEq, Repr

/-- The `while True` retry loop shared by `send_msg` and `recv_msg`,
indexed by the iteration number `i` and bounded by `fuel` observed
iterations (`none` means the loop was still running after `fuel`
iterations).  `op i` is the outcome of the websocket operation on
iteration `i`; `conn i` is the result of the `_connect` call triggered by
a failure on iteration `i`.  The caught recoverable error itself is
discarded, never surfaced. -/
def sendLoopAux (op : Nat → OpOutcome) (conn : Nat → ConnResult) :
    Nat → Nat → Option LoopResult
  | 0, _ => none
  | fuel + 1, i =>
    match op i with
    | .ok => some .success
    | .recErr _ =>
      match conn i with
      | .connected => sendLoopAux op conn fuel (i + 1)
      | r => some (.connectRaise r)

/-- A `send_msg`/`recv_msg` call composed with the real `_connect`:
the `j`-th reconnect runs `_connect` with its default `tries = 1000`
against the environment schedule `sched j`. -/
def sendMsgRun (op : Nat → OpOutcome) (fix : Bool)
    (sched : Nat → Nat → Attempt) (fuel : Nat) : Option LoopResult :=
  sendLoopAux op (fun j => (connect fix (sched j) defaultConnectTries).result)
    fuel 0

/-! ## Theorems: reconnect policy -/

lemma connectAux_all_fail (fix : Bool) (att : Nat → Attempt)
    (e : Nat → RecErr) (h : ∀ j, classify fix (att j) = .recFail (e j)) :
    ∀ (r i : Nat) (last : Option RecErr),
      connectAux fix att (r + 1) i last =
        ⟨.exhausted (e (i + r)), r + 1, List.replicate (r + 1) reconnectDelay⟩ := by
  intro r
  induction r with
  | zero =>
    intro i last
    simp [connectAux, h i]
  | succ n ih =>
    intro i last
    have hrec := ih (i + 1) (some (e i))
    rw [connectAux.eq_def]
    have hidx : i + 1 + n = i + (n + 1) := by omega
    simp [h i, hrec, hidx, List.replicate_succ]

/-- C2: if every connect attempt fails with a recoverable transport error,
`_connect` makes exactly its configured number of attempts (default 1000),
sleeps the fixed 0.5s delay after each failed attempt (in particular
between consecutive attempts), and then raises exactly once, surfacing the
error of the last attempt as fatal. -/
theorem connect_exhaustion (fix : Bool) (att : Nat → Attempt)
    (e : Nat → RecErr) (tries : Nat) (htries : 0 < tries)
    (h : ∀ j, classify fix (att j) = .recFail (e j)) :
    connect fix att tries =
      ⟨.exhausted (e (tries - 1)), tries,
        List.replicate tries reconnectDelay⟩ ∧
    defaultConnectTries = 1000 ∧ reconnectDelay = 1 / 2 := by
  refine ⟨?_, rfl, rfl⟩
  obtain ⟨r, rfl⟩ : ∃ r, tries = r + 1 := ⟨tries - 1, by omega⟩
  have := connectAux_all_fail fix att e h r 0 none
  simpa [connect] using this

/-- Witness for `connect_exhaustion`: a concrete schedule where every
attempt's websocket open raises `ConnectionClosed`; with `tries = 3` the
call raises `ConnectionClosed` after 3 attempts and 3 half-second sleeps. -/
theorem connect_exhaustion_witness :
    connect false (fun _ => ⟨.fail .connectionClosed, .ok⟩) 3 =
      ⟨.exhausted .connectionClosed, 3,
        List.replicate 3 reconnectDelay⟩ ∧
    defaultConnectTries = 1000 ∧ reconnectDelay = 1 / 2 :=
  connect_exhaustion false (fun _ => ⟨.fail .connectionClosed, .ok⟩)
    (fun _ => .connectionClosed) 3 (by decide) (fun _ => rfl)


/-! ### One-step unfolding equations (definitional) -/

lemma connectAux_succ (fix : Bool) (att : Nat → Attempt) (r i : Nat)
    (last : Option RecErr) :
    connectAux fix att (r + 1) i last =
      match classify fix (att i) with
      | .success => ⟨.connected, 1, []⟩
      | .recFail e =>
        ⟨(connectAux fix att r (i + 1) (some e)).result,
         (connectAux fix att r (i + 1) (some e)).attemptsMade + 1,
         reconnectDelay :: (connectAux fix att r (i + 1) (some e)).sleeps⟩
      | .fatal => ⟨.fatalHookError, 1, []⟩ := rfl

lemma sendLoopAux_succ (op : Nat → OpOutcome) (conn : Nat → ConnResult)
    (fuel i : Nat) :
    sendLoopAux op conn (fuel + 1) i =
      match op i with
      | .ok => some .success
      | .recErr _ =>
        match conn i with
        | .connected => sendLoopAux op conn fuel (i + 1)
        | r => some (.connectRaise r) := rfl

lemma sendLoopAux_cases (op : Nat → OpOutcome) (conn : Nat → ConnResult) :
    ∀ (fuel i : Nat) (r : LoopResult), sendLoopAux op conn fuel i = some r →
      (r = .success ∧ ∃ k, op k = .ok) ∨
      (∃ j, conn j ≠ .connected ∧ r = .connectRaise (conn j)) := by
  intro fuel
  induction fuel with
  | zero => intro i r h; simp [sendLoopAux] at h
  | succ n ih =>
    intro i r h
    rw [sendLoopAux_succ] at h
    cases hop : op i with
    | ok =>
      rw [hop] at h
      simp only [Option.some.injEq] at h
      exact Or.inl ⟨h.symm, i, hop⟩
    | recErr e =>
      rw [hop] at h
      cases hc : conn i with
      | connected =>
        rw [hc] at h
        exact ih (i + 1) r h
      | exhausted e' =>
        rw [hc] at h
        simp only [Option.some.injEq] at h
        exact Or.inr ⟨i, by rw [hc]; simp, by rw [hc]; exact h.symm⟩
      | fatalHookError =>
        rw [hc] at h
        simp only [Option.some.injEq] at h
        exact Or.inr ⟨i, by rw [hc]; simp, by rw [hc]; exact h.symm⟩
      | raiseNone =>
        rw [hc] at h
        simp only [Option.some.injEq] at h
        exact Or.inr ⟨i, by rw [hc]; simp, by rw [hc]; exact h.symm⟩

/-- C1 (amended): a `send_msg`/`recv_msg` call returns only on success of
the underlying websocket operation; every recoverable transport error it
hits is absorbed by running `_connect` and retrying, the caught error
itself never surfacing; and the only exceptions it propagates are those
raised by the `_connect` call itself — the last transport error once the
retry budget is exhausted, or a non-recoverable error escaping the
reconnect (e.g. from the post-connect fixture). -/
theorem send_recv_only_reconnect_raised_errors (op : Nat → OpOutcome)
    (fix : Bool) (sched : Nat → Nat → Attempt) (fuel : Nat) (r : LoopResult)
    (h : sendMsgRun op fix sched fuel = some r) :
    (r = .success ∧ ∃ k, op k = .ok) ∨
    (∃ j, (connect fix (sched j) defaultConnectTries).result ≠ .connected ∧
      r = .connectRaise ((connect fix (sched j) defaultConnectTries).result)) :=
  sendLoopAux_cases op
    (fun j => (connect fix (sched j) defaultConnectTries).result) fuel 0 r h

/-- Witness for `send_recv_only_reconnect_raised_errors`: with the
websocket operation succeeding on its first try, the call returns
successfully. -/
theorem send_recv_only_reconnect_raised_errors_witness :
    (LoopResult.success = LoopResult.success ∧
      ∃ k : Nat, OpOutcome.ok = OpOutcome.ok) ∨
    (∃ j : Nat,
      (connect false (fun _ => Attempt.mk .up .ok)
          defaultConnectTries).result ≠ ConnResult.connected ∧
      LoopResult.success = LoopResult.connectRaise ((connect false
        (fun _ => Attempt.mk .up .ok) defaultConnectTries).result)) :=
  send_recv_only_reconnect_raised_errors (fun _ => .ok) false
    (fun _ _ => Attempt.mk .up .ok) 1 .success rfl

/-- C1 (counterexample): it is not the case that the only exception
`send_msg`/`recv_msg` propagate is the one raised when reconnect exhausts
its retry budget.  With a registered fixture that raises a non-recoverable
error, the reconnect triggered by a recoverable send failure propagates
that fixture error to the caller without the budget being exhausted. -/
theorem send_recv_absorbs_all_failures_cex :
    ¬ (∀ (op : Nat → OpOutcome) (fix : Bool) (sched : Nat → Nat → Attempt)
        (fuel : Nat) (r : LoopResult), sendMsgRun op fix sched fuel = some r →
        r = .success ∨ ∃ e, r = .connectRaise (.exhausted e)) := by
  intro hclaim
  have h := hclaim (fun _ => .recErr .connectionClosed) true
    (fun _ _ => ⟨.up, .otherErr⟩) 1 (.connectRaise .fatalHookError) rfl
  rcases h with h | ⟨e, h⟩ <;> simp at h

/-! ## Theorems: post-connect fixture semantics -/

lemma classify_true_success (a : Attempt) :
    classify true a = .success ↔ a.link = .up ∧ a.hook = .ok := by
  obtain ⟨l, k⟩ := a
  cases l <;> cases k <;> simp [classify]

lemma connectAux_connected (fix : Bool) (att : Nat → Attempt) :
    ∀ (r i : Nat) (last : Option RecErr) (t : ConnectTrace),
      connectAux fix att r i last = t → t.result = .connected →
      1 ≤ t.attemptsMade ∧
      classify fix (att (i + t.attemptsMade - 1)) = .success := by
  intro r
  induction r with
  | zero =>
    intro i last t ht hres
    cases last with
    | none =>
      have ht' : (⟨.raiseNone, 0, []⟩ : ConnectTrace) = t := ht
      rw [← ht'] at hres; simp at hres
    | some e =>
      have ht' : (⟨.exhausted e, 0, []⟩ : ConnectTrace) = t := ht
      rw [← ht'] at hres; simp at hres
  | succ n ih =>
    intro i last t ht hres
    rw [connectAux_succ] at ht
    cases hc : classify fix (att i) with
    | success =>
      rw [hc] at ht
      have ht' : (⟨.connected, 1, []⟩ : ConnectTrace) = t := ht
      rw [← ht']
      exact ⟨Nat.le_refl 1, by simpa using hc⟩
    | recFail e =>
      rw [hc] at ht
      have ht' : (⟨(connectAux fix att n (i + 1) (some e)).result,
          (connectAux fix att n (i + 1) (some e)).attemptsMade + 1,
          reconnectDelay ::
            (connectAux fix att n (i + 1) (some e)).sleeps⟩ :
          ConnectTrace) = t := ht
      have hres' : (connectAux fix att n (i + 1) (some e)).result =
          .connected := by rw [← ht'] at hres; exact hres
      obtain ⟨h1, h2⟩ :=
        ih (i + 1) (some e) (connectAux fix att n (i + 1) (some e)) rfl hres'
      rw [← ht']
      refine ⟨by simp, ?_⟩
      have hidx : i + ((connectAux fix att n (i + 1) (some e)).attemptsMade
          + 1) - 1
          = i + 1 + (connectAux fix att n (i + 1) (some e)).attemptsMade
            - 1 := by omega
      simpa [hidx] using h2
    | fatal =>
      rw [hc] at ht
      have ht' : (⟨.fatalHookError, 1, []⟩ : ConnectTrace) = t := ht
      rw [← ht'] at hres; simp at hres

/-- C7 (amended): with a fixture registered, (a) `_connect` only returns
success after the fixture of its final attempt ran cleanly on an
established link — the hook runs before `connect` returns; (b) a fixture
failing with a *recoverable* transport error makes that attempt count as
failed, consuming one retry of the budget before the next attempt runs;
(c) a fixture failing with any *other* error propagates immediately,
aborting the procedure after one attempt rather than consuming a retry. -/
theorem connect_hook_error_semantics (att : Nat → Attempt) (tries : Nat) :
    ((connect true att tries).result = .connected →
      1 ≤ (connect true att tries).attemptsMade ∧
      (att ((connect true att tries).attemptsMade - 1)).link = .up ∧
      (att ((connect true att tries).attemptsMade - 1)).hook = .ok) ∧
    (∀ e, att 0 = ⟨.up, .recErr e⟩ → att 1 = ⟨.up, .ok⟩ → 2 ≤ tries →
      connect true att tries = ⟨.connected, 2, [reconnectDelay]⟩) ∧
    ((att 0).link = .up → (att 0).hook = .otherErr → 1 ≤ tries →
      connect true att tries = ⟨.fatalHookError, 1, []⟩) := by
  refine ⟨?_, ?_, ?_⟩
  · intro hres
    obtain ⟨h1, h2⟩ := connectAux_connected true att tries 0 none
      (connect true att tries) rfl hres
    rw [Nat.zero_add] at h2
    rw [classify_true_success] at h2
    exact ⟨h1, h2⟩
  · intro e h0 h1 h2
    obtain ⟨t, rfl⟩ : ∃ t, tries = t + 1 + 1 := ⟨tries - 2, by omega⟩
    have hc0 : classify true (att 0) = .recFail e := by rw [h0]; rfl
    have hc1 : classify true (att 1) = .success := by rw [h1]; rfl
    simp [connect, connectAux_succ, hc0, hc1]
  · intro hl hh h1
    obtain ⟨t, rfl⟩ : ∃ t, tries = t + 1 := ⟨tries - 1, by omega⟩
    have h00 : att 0 = ⟨.up, .otherErr⟩ := by
      rcases hmk : att 0 with ⟨l, k⟩
      rw [hmk] at hl hh
      simp only at hl hh
      rw [hl, hh]
    have hc0 : classify true (att 0) = .fatal := by rw [h00]; rfl
    simp [connect, connectAux_succ, hc0]

/-- Witness for `connect_hook_error_semantics`: concretely, a fixture that
raises `HandshakeError` on attempt 0 and runs cleanly on attempt 1 lets
`_connect` succeed on the second of 2 tries, having slept once. -/
theorem connect_hook_error_semantics_witness :
    connect true
      (fun i => if i = 0 then Attempt.mk .up (.recErr .handshakeError)
                else Attempt.mk .up .ok) 2
      = ⟨.connected, 2, [reconnectDelay]⟩ :=
  (connect_hook_error_semantics
    (fun i => if i = 0 then Attempt.mk .up (.recErr .handshakeError)
              else Attempt.mk .up .ok) 2).2.1
    .handshakeError rfl rfl (by decide)

/-- C7 (counterexample): it is not the case that *any* error from the
post-connect fixture makes the attempt count as failed and consume one
retry: a non-recoverable fixture error on attempt 0 aborts `_connect`
immediately even though attempt 1 would have succeeded within the
budget. -/
theorem connect_hook_any_error_retries_cex :
    ¬ (∀ (att : Nat → Attempt) (tries : Nat), 2 ≤ tries →
        (att 0).link = .up → (att 0).hook ≠ .ok → att 1 = ⟨.up, .ok⟩ →
        (connect true att tries).result = .connected) := by
  intro hclaim
  have h := hclaim
    (fun i => if i = 0 then ⟨.up, .otherErr⟩ else ⟨.up, .ok⟩) 2
    (by decide) rfl (by decide) rfl
  exact absurd h (by decide)

/-! ## JSON wire encoding (`json.dumps` / `json.loads` as used by
`send_msg` line 116 and `recv_msg` line 125)

JSON values are modelled with exact integer numbers; floating point
payloads and `\uXXXX` escapes are outside the modelled value domain.  The
encoder follows `json.dumps` defaults: separators `", "` and `": "`, and
escaping of the quote and backslash characters. -/

/-- A JSON-representable value. -/
inductive JVal
| null
| bool (b : Bool)
| int (n : Int)
| str (s : String)
| arr (xs : List JVal)
| obj (fs : List (String × JVal))

/-- Opening brace character. -/
def lbrace : Char := Char.ofNat 123

/-- Closing brace character. -/
def rbrace : Char := Char.ofNat 125

/-- Escape quote and backslash, as `json.dumps` does for plain text. -/
def escChars : List Char → List Char
  | [] => []
  | c :: cs =>
    if c = '\\' then '\\' :: '\\' :: escChars cs
    else if c = '"' then '\\' :: '"' :: escChars cs
    else c :: escChars cs

/-- Decimal digit character. -/
def digitChar (n : Nat) : Char := Char.ofNat (48 + n)

/-- Decimal digits of a natural number, most significant first (`fuel`
bounds the recursion; `natChars` supplies enough). -/
def natCharsAux : Nat → Nat → List Char
  | 0, _ => []
  | fuel + 1, n =>
    if n < 10 then [digitChar n]
    else natCharsAux fuel (n / 10) ++ [digitChar (n % 10)]

/-- Decimal rendering of a natural number. -/
def natChars (n : Nat) : List Char := natCharsAux (n + 1) n

/-- Decimal rendering of an integer. -/
def intChars : Int → List Char
  | .ofNat n => natChars n
  | .negSucc m => '-' :: natChars (m + 1)

mutual

/-- Encoding of one JSON value (`json.dumps` with default separators). -/
def encVal : JVal → List Char
  | .int n => intChars n
  | .str s => '"' :: (escChars s.data ++ ['"'])
  | .bool b => (cond b "true" "false").data
  | .null => "null".data
  | .arr xs => '[' :: encArr xs ++ [']']
  | .obj fs => lbrace :: encObj fs ++ [rbrace]

/-- Encoding of array elements, separated by `", "`. -/
def encArr : List JVal → List Char
  | [] => []
  | [x] => encVal x
  | x :: y :: xs => encVal x ++ ',' :: ' ' :: encArr (y :: xs)

/-- Encoding of object members, `"key": value` separated by `", "`. -/
def encObj : List (String × JVal) → List Char
  | [] => []
  | [(k, v)] => '"' :: (escChars k.data ++ '"' :: ':' :: ' ' :: encVal v)
  | (k, v) :: f :: fs =>
    ('"' :: (escChars k.data ++ '"' :: ':' :: ' ' :: encVal v))
      ++ ',' :: ' ' :: encObj (f :: fs)

end

/-- The `json.dumps` serialization used by `NoBsWs.send_msg`. -/
def jsonEncode (v : JVal) : String := ⟨encVal v⟩

/-- JSON whitespace predicate (space, newline, tab, carriage return). -/
def jsonWs (c : Char) : Bool :=
  c = ' ' || c = '\n' || c = '\t' || c = '\r'

/-- Skip JSON whitespace. -/
def skipWs (s : List Char) : List Char := s.dropWhile jsonWs

/-- Strip an expected keyword tail (e.g. `ull` after a leading `n`),
returning the remaining input when it matches. -/
def stripTok : List Char → List Char → Option (List Char)
  | [], s => some s
  | _ :: _, [] => none
  | l :: ls, c :: cs => if c = l then stripTok ls cs else none

/-- Parse a string body after the opening quote, handling the `\"` and
`\\` escapes; returns the decoded characters and the remaining input. -/
def parseStrBody : List Char → Option (List Char × List Char)
  | [] => none
  | '\\' :: d :: ds =>
    if d = '"' ∨ d = '\\' then
      (parseStrBody ds).map (fun p => (d :: p.1, p.2))
    else none
  | c :: cs =>
    if c = '"' then some ([], cs)
    else if c = '\\' then none
    else (parseStrBody cs).map (fun p => (c :: p.1, p.2))

/-- Accumulate decimal digits; returns the value and the remaining
input. -/
def parseNatAux : List Char → Nat → Nat × List Char
  | [], acc => (acc, [])
  | c :: cs, acc =>
    if c.isDigit then parseNatAux cs (acc * 10 + (c.toNat - 48))
    else (acc, c :: cs)

/-- Mode of the recursive-descent JSON parser: a value, the items of an
array after `[`, or the members of an object after the opening brace. -/
inductive PMode
| val
| arrItems
| objItems

/-- Recursive-descent JSON parser (the `json.loads` grammar restricted to
the modelled value domain), bounded by `fuel` nesting steps. -/
def parseF : Nat → PMode → List Char → Option (JVal × List Char)
  | 0, _, _ => none
  | fuel + 1, .val, s =>
    match skipWs s with
    | [] => none
    | c :: rest =>
      if c = 'n' then
        (stripTok ['u', 'l', 'l'] rest).map (fun r => (JVal.null, r))
      else if c = 't' then
        (stripTok ['r', 'u', 'e'] rest).map (fun r => (JVal.bool true, r))
      else if c = 'f' then
        (stripTok ['a', 'l', 's', 'e'] rest).map (fun r => (JVal.bool false, r))
      else if c = '"' then
        (parseStrBody rest).map (fun p => (JVal.str ⟨p.1⟩, p.2))
      else if c = '[' then
        match skipWs rest with
        | [] => none
        | d :: r => if d = ']' then some (.arr [], r)
                    else parseF fuel .arrItems (d :: r)
      else if c = lbrace then
        match skipWs rest with
        | [] => none
        | d :: r => if d = rbrace then some (.obj [], r)
                    else parseF fuel .objItems (d :: r)
      else if c = '-' then
        match rest with
        | [] => none
        | d :: rs =>
          if d.isDigit then
            some (.int (-(Int.ofNat (parseNatAux rs (d.toNat - 48)).1)),
              (parseNatAux rs (d.toNat - 48)).2)
          else none
      else if c.isDigit then
        some (.int (Int.ofNat (parseNatAux rest (c.toNat - 48)).1),
          (parseNatAux rest (c.toNat - 48)).2)
      else none
  | fuel + 1, .arrItems, s =>
    match parseF fuel .val s with
    | none => none
    | some (v, r) =>
      match skipWs r with
      | [] => none
      | d :: r2 =>
        if d = ']' then some (.arr [v], r2)
        else if d = ',' then
          match parseF fuel .arrItems r2 with
          | some (.arr vs, r3) => some (.arr (v :: vs), r3)
          | _ => none
        else none
  | fuel + 1, .objItems, s =>
    match skipWs s with
    | [] => none
    | c :: rest =>
      if c = '"' then
        match parseStrBody rest with
        | none => none
        | some (kcs, r1) =>
          match skipWs r1 with
          | [] => none
          | da :: r2 =>
            if da = ':' then
              match parseF fuel .val r2 with
              | none => none
              | some (v, r3) =>
                match skipWs r3 with
                | [] => none
                | db :: r4 =>
                  if db = rbrace then some (.obj [(⟨kcs⟩, v)], r4)
                  else if db = ',' then
                    match parseF fuel .objItems r4 with
                    | some (.obj fs, r5) => some (.obj ((⟨kcs⟩, v) :: fs), r5)
                    | _ => none
                  else none
            else none
      else none

/-- The `json.loads` deserialization used by `NoBsWs.recv_msg`: parse one
value and require the rest of the input to be whitespace. -/
def jsonDecode (s : String) : Option JVal :=
  match parseF (2 * s.length + 4) .val s.data with
  | some (v, r) => if skipWs r = [] then some v else none
  | none => none

/-! ## The duplex channel as seen by `send_msg`/`recv_msg` on their
success paths: what `send_msg` puts on the wire is `json.dumps(data)`
(line 116), and `recv_msg` returns `json.loads` of the next wire text
(line 125). -/

/-- The message-framed wire: the queue of serialized frames in flight. -/
structure WireChannel where
  queue : List String
deriving DecidableEq

/-- `NoBsWs.send_msg(data)` on its success path: append the JSON encoding
of the value to the wire. -/
def sendMsgWire (ch : WireChannel) (v : JVal) : WireChannel :=
  ⟨ch.queue ++ [jsonEncode v]⟩

/-- `NoBsWs.recv_msg()` on its success path: take the next wire text and
return its JSON decoding (`none` models a `json.loads` failure or an
empty wire). -/
def recvMsgWire (ch : WireChannel) : Option (JVal × WireChannel) :=
  match ch.queue with
  | [] => none
  | w :: rest => (jsonDecode w).map (fun v => (v, ⟨rest⟩))

/-- C10: sending serializes with JSON encoding and receiving decodes the
wire text, so the value received after a send equals the JSON round-trip
of the sent value; in particular `recv_msg` after `send_msg` is the
identity on any value the JSON encoding/decoding round-trip preserves. -/
theorem send_recv_json_roundtrip (v : JVal)
    (h : jsonDecode (jsonEncode v) = some v) :
    (∀ w : JVal, recvMsgWire (sendMsgWire ⟨[]⟩ w) =
      (jsonDecode (jsonEncode w)).map (fun x => (x, (⟨[]⟩ : WireChannel)))) ∧
    recvMsgWire (sendMsgWire ⟨[]⟩ v) = some (v, ⟨[]⟩) := by
  constructor
  · intro w
    simp [recvMsgWire, sendMsgWire]
  · simp [recvMsgWire, sendMsgWire, h]

/-- Witness for `send_recv_json_roundtrip`: the JSON round-trip preserves
the concrete value `{"a": [1, true, null]}`, which is therefore received
exactly as sent. -/
theorem send_recv_json_roundtrip_witness :
    (∀ w : JVal, recvMsgWire (sendMsgWire ⟨[]⟩ w) =
      (jsonDecode (jsonEncode w)).map (fun x => (x, (⟨[]⟩ : WireChannel)))) ∧
    recvMsgWire (sendMsgWire ⟨[]⟩
        (JVal.obj [("a", JVal.arr [JVal.int 1, JVal.bool true, JVal.null])]))
      = some (JVal.obj [("a", JVal.arr [JVal.int 1, JVal.bool true,
          JVal.null])], ⟨[]⟩) :=
  send_recv_json_roundtrip
    (JVal.obj [("a", JVal.arr [JVal.int 1, JVal.bool true, JVal.null])])
    (by
      have h1 : jsonEncode (JVal.obj [("a", JVal.arr [JVal.int 1,
          JVal.bool true, JVal.null])]) = "\x7b\"a\": [1, true, null]\x7d" := by
        simp [jsonEncode, encVal, encArr, encObj, escChars, intChars,
          natChars, natCharsAux, digitChar, lbrace, rbrace]
      rw [h1]
      rfl)

/-! ## JSON-RPC multiplexing session (`open_jsonrpc_session`,
lines 171-238)

The `rpc_results` dict is modelled as an association list with
replace-on-set semantics; `trio.Event` as a `Bool` flag. -/

/-- Ordered-dictionary lookup. -/
def alookup {κ β : Type} [DecidableEq κ] : List (κ × β) → κ → Option β
  | [], _ => none
  | (k, v) :: rest, key => if k = key then some v else alookup rest key

/-- Ordered-dictionary set (`d[key] = v`): replace in place or append. -/
def aset {κ β : Type} [DecidableEq κ] : List (κ × β) → κ → β → List (κ × β)
  | [], key, v => [(key, v)]
  | (k, w) :: rest, key, v =>
    if k = key then (key, v) :: rest else (k, w) :: aset rest key v

/-- Ordered-dictionary delete (`del d[key]`). -/
def aerase {κ β : Type} [DecidableEq κ] : List (κ × β) → κ → List (κ × β)
  | [], _ => []
  | (k, w) :: rest, key =>
    if k = key then aerase rest key else (k, w) :: aerase rest key

lemma alookup_aset {κ β : Type} [DecidableEq κ] :
    ∀ (l : List (κ × β)) (k : κ) (v : β), alookup (aset l k v) k = some v := by
  intro l k v
  induction l with
  | nil => simp [aset, alookup]
  | cons p rest ih =>
    obtain ⟨a, b⟩ := p
    by_cases hak : a = k <;> simp [aset, hak, alookup, ih]

lemma alookup_aerase {κ β : Type} [DecidableEq κ] :
    ∀ (l : List (κ × β)) (k : κ), alookup (aerase l k) k = none := by
  intro l k
  induction l with
  | nil => simp [aerase, alookup]
  | cons p rest ih =>
    obtain ⟨a, b⟩ := p
    by_cases hak : a = k <;> simp [aerase, hak, alookup, ih]

/-- The `JSONRPCResult` schema (lines 164-168): `jsonrpc` defaults to
`'2.0'`, `id` is required, `result` and `error` default to `None`. -/
structure JSONRPCResult where
  jsonrpc : String := "2.0"
  id : Int
  result : Option JVal := none
  error : Option JVal := none

/-- One entry of `rpc_results`: the `{'result': ..., 'event': ...}` dict
(`eventSet` models whether the `trio.Event` has been set). -/
structure RpcSlot where
  result : Option JSONRPCResult
  eventSet : Bool

/-- The `rpc_results: dict[int, dict]` pending-results mapping. -/
abbrev RpcMap : Type := List (Int × RpcSlot)

/-- One iteration of `recv_task` (lines 221-233) on an inbound decoded
frame: warn when the id has no registered slot, then
`rpc_results.setdefault(msg.id, ...)`, store the frame in the slot's
result field and set its event.  Returns the new mapping and whether the
unmatched-id warning was logged. -/
def recvStep (m : RpcMap) (msg : JSONRPCResult) : RpcMap × Bool :=
  let unmatched := (alookup m msg.id).isNone
  (aset m msg.id ⟨some msg, true⟩, unmatched)

/-- The tail of `json_rpc` (lines 205-214) for call id `i`, once the
event has been waited on: read the stored result, delete the slot, then
raise an exception carrying the error payload if the response has a
non-null `error` field, else return the response.  `none` models a state
where the call could not have been woken (no slot or no stored result). -/
def callFinish (m : RpcMap) (i : Int) :
    Option (Except JVal JSONRPCResult × RpcMap) :=
  match alookup m i with
  | none => none
  | some slot =>
    match slot.result with
    | none => none
    | some ret =>
      match ret.error with
      | some e => some (.error e, aerase m i)
      | none => some (.ok ret, aerase m i)

/-- The slot registration of `json_rpc` (lines 198-201):
`rpc_results[_id] = {'result': None, 'event': trio.Event()}`. -/
def registerSlot (m : RpcMap) (i : Int) : RpcMap := aset m i ⟨none, false⟩

/-- A whole matched `json_rpc` call: register the slot, the receive loop
stores the matching response and wakes the caller, the caller reads and
deletes the slot (whether it then raises or returns). -/
def fullCall (m : RpcMap) (resp : JSONRPCResult) : RpcMap :=
  let m1 := registerSlot m resp.id
  let m2 := (recvStep m1 resp).1
  match callFinish m2 resp.id with
  | some (_, m3) => m3
  | none => m2

/-- A session performing a sequence of matched calls. -/
def runMatchedCalls (resps : List JSONRPCResult) (m : RpcMap) : RpcMap :=
  resps.foldl fullCall m

/-- Correlation-id allocation: one `next()` step of
`itertools.count(start_id)`. -/
def nextId (c : Int) : Int × Int := (c, c + 1)

/-- The id allocated to the `n`-th call of a session started at `start`:
the result of the `n`-th `next(rpc_id)`. -/
def idOfCall (start : Int) : Nat → Int
  | 0 => (nextId start).1
  | n + 1 => idOfCall (nextId start).2 n

/-- The request frame built by `json_rpc` (lines 190-195): exactly the
fields `jsonrpc`, `id`, `method`, `params`. -/
def rpcRequest (i : Int) (method : String) (params : JVal) : JVal :=
  .obj [("jsonrpc", .str "2.0"), ("id", .int i), ("method", .str method),
    ("params", params)]

/-- Field names of a JSON object frame. -/
def objKeys : JVal → List String
  | .obj fs => fs.map Prod.fst
  | _ => []

/-- C3 (code evaluated at the failing input): an inbound frame with id 42
arriving while the pending-results mapping is empty is logged as
unexpected, but the receive loop then *inserts* a fresh slot for id 42
(via `setdefault`), stores the frame and sets its event — the mapping is
not left unchanged as specified. -/
theorem recv_unmatched_id_inserts_slot :
    recvStep [] ⟨"2.0", 42, some (JVal.obj []), none⟩
      = ([(42, ⟨some ⟨"2.0", 42, some (JVal.obj []), none⟩, true⟩)], true) ∧
    ([(42, (⟨some ⟨"2.0", 42, some (JVal.obj []), none⟩, true⟩ : RpcSlot))]
        : RpcMap) ≠ ([] : RpcMap) := by
  constructor
  · rfl
  · intro hfalse
    exact List.cons_ne_nil _ _ hfalse

/-- C4: a `json_rpc` call whose matched response carries a non-null
`error` field fails by raising an exception carrying that error payload
instead of returning a result; when the `error` field is null the call
returns the matched response carrying the result payload. -/
theorem call_error_raises_remote_error (m : RpcMap) (i : Int)
    (ret : JSONRPCResult) (ev : Bool)
    (h : alookup m i = some ⟨some ret, ev⟩) :
    (∀ e, ret.error = some e →
      callFinish m i = some (.error e, aerase m i)) ∧
    (ret.error = none →
      callFinish m i = some (.ok ret, aerase m i)) := by
  constructor
  · intro e he
    simp [callFinish, h, he]
  · intro he
    simp [callFinish, h, he]

/-- Witness for `call_error_raises_remote_error`: a concrete mapping with
a matched erroring response for id 1; the call raises with the payload
`"boom"` and the slot is deleted. -/
theorem call_error_raises_remote_error_witness :
    (∀ e, (JSONRPCResult.mk "2.0" 1 none (some (JVal.str "boom"))).error
        = some e →
      callFinish [(1, RpcSlot.mk (some (JSONRPCResult.mk "2.0" 1 none
          (some (JVal.str "boom")))) true)] 1
        = some (Except.error e, aerase ([(1, RpcSlot.mk
          (some (JSONRPCResult.mk "2.0" 1 none
          (some (JVal.str "boom")))) true)] : RpcMap) 1)) ∧
    ((JSONRPCResult.mk "2.0" 1 none (some (JVal.str "boom"))).error = none →
      callFinish [(1, RpcSlot.mk (some (JSONRPCResult.mk "2.0" 1 none
          (some (JVal.str "boom")))) true)] 1
        = some (Except.ok (JSONRPCResult.mk "2.0" 1 none
            (some (JVal.str "boom"))),
          aerase ([(1, RpcSlot.mk (some (JSONRPCResult.mk "2.0" 1 none
            (some (JVal.str "boom")))) true)] : RpcMap) 1)) :=
  call_error_raises_remote_error
    [(1, RpcSlot.mk (some (JSONRPCResult.mk "2.0" 1 none
      (some (JVal.str "boom")))) true)] 1
    (JSONRPCResult.mk "2.0" 1 none (some (JVal.str "boom"))) true rfl

lemma fullCall_nil (resp : JSONRPCResult) : fullCall [] resp = [] := by
  cases he : resp.error <;>
    simp [fullCall, registerSlot, recvStep, callFinish, aset, alookup,
      aerase, he]

/-- C9: every completing call — returning or raising — deletes its
correlation id's slot from the pending-results mapping before finishing,
so a session of finitely many matched calls leaves the mapping empty. -/
theorem call_completion_deletes_slot (m : RpcMap) (i : Int)
    (ret : JSONRPCResult) (ev : Bool)
    (h : alookup m i = some ⟨some ret, ev⟩) :
    (∃ r, callFinish m i = some (r, aerase m i)) ∧
    alookup (aerase m i) i = none ∧
    (∀ resps : List JSONRPCResult, runMatchedCalls resps [] = []) := by
  refine ⟨?_, alookup_aerase m i, ?_⟩
  · cases he : ret.error with
    | none => exact ⟨.ok ret, by simp [callFinish, h, he]⟩
    | some e => exact ⟨.error e, by simp [callFinish, h, he]⟩
  · intro resps
    induction resps with
    | nil => rfl
    | cons r rs ih =>
      show runMatchedCalls rs (fullCall [] r) = []
      rw [fullCall_nil]
      exact ih

/-- Witness for `call_completion_deletes_slot`: a concrete mapping with a
matched clean response for id 7. -/
theorem call_completion_deletes_slot_witness :
    (∃ r, callFinish [(7, RpcSlot.mk (some (JSONRPCResult.mk "2.0" 7
        (some (JVal.obj [])) none)) true)] 7
      = some (r, aerase ([(7, RpcSlot.mk (some (JSONRPCResult.mk "2.0" 7
        (some (JVal.obj [])) none)) true)] : RpcMap) 7)) ∧
    alookup (aerase ([(7, RpcSlot.mk (some (JSONRPCResult.mk "2.0" 7
        (some (JVal.obj [])) none)) true)] : RpcMap) 7) 7 = none ∧
    (∀ resps : List JSONRPCResult, runMatchedCalls resps [] = []) :=
  call_completion_deletes_slot
    [(7, RpcSlot.mk (some (JSONRPCResult.mk "2.0" 7 (some (JVal.obj []))
      none)) true)]
    7 (JSONRPCResult.mk "2.0" 7 (some (JVal.obj [])) none) true rfl

lemma idOfCall_eq (start : Int) : ∀ n : Nat, idOfCall start n = start + n := by
  intro n
  induction n generalizing start with
  | zero => simp [idOfCall, nextId]
  | succ m ih =>
    rw [show idOfCall start (m + 1) = idOfCall (start + 1) m from rfl, ih]
    push_cast
    ring

/-- C8: correlation ids of one session started at `start_id` are strictly
monotonically increasing — the first call gets `start_id` and each
subsequent call the previous id plus one — and every request frame is
sent with exactly the fields `jsonrpc`, `id`, `method`, `params`. -/
theorem rpc_ids_monotonic_and_frame_fields (start : Int) (m n : Nat)
    (method : String) (params : JVal) (hmn : m < n) :
    idOfCall start 0 = start ∧
    (∀ k, idOfCall start (k + 1) = idOfCall start k + 1) ∧
    idOfCall start m < idOfCall start n ∧
    objKeys (rpcRequest (idOfCall start n) method params)
      = ["jsonrpc", "id", "method", "params"] := by
  refine ⟨by simp [idOfCall, nextId], ?_, ?_, rfl⟩
  · intro k
    rw [idOfCall_eq, idOfCall_eq]
    push_cast
    ring
  · rw [idOfCall_eq, idOfCall_eq]
    omega

/-- Witness for `rpc_ids_monotonic_and_frame_fields`: session started at
0, calls 0 and 1, a concrete method and params. -/
theorem rpc_ids_monotonic_and_frame_fields_witness :
    idOfCall 0 0 = 0 ∧
    (∀ k, idOfCall 0 (k + 1) = idOfCall 0 k + 1) ∧
    idOfCall 0 0 < idOfCall 0 1 ∧
    objKeys (rpcRequest (idOfCall 0 1) "public/ticker" (JVal.obj []))
      = ["jsonrpc", "id", "method", "params"] :=
  rpc_ids_monotonic_and_frame_fields 0 0 1 "public/ticker" (JVal.obj [])
    (by decide)

/-! ## Clearing message taxonomy (`src/piker/clearing/_messages.py`)

The field lists, literal sets, defaults and optionality below are taken
from the `Struct` subclasses in the source.  The validating constructor
semantics itself (the `Struct` base class, `piker/data/types.py`) is not
under `src/`, so it is modelled from the spec. -/

/-- Modelled from the spec: the `SchemaError` construction failure of the
message taxonomy (the validating `Struct` base class is not under
`src/`): a required field is missing, or an enum-valued field lies
outside its declared literal set. -/
inductive SchemaError
| missingField (f : String)
| badEnum (f : String) (v : String)
deriving DecidableEq, Repr

/-- A broker-side request id, `int | str` in the source. -/
inductive Reqid
| int (n : Int)
| str (s : String)
deriving DecidableEq, Repr

/-- The declared literal set of `Order.action` (lines 79-83). -/
def isOrderAction (a : String) : Prop :=
  a = "buy" ∨ a = "sell" ∨ a = "alert"

instance (a : String) : Decidable (isOrderAction a) := by
  unfold isOrderAction; infer_instance

/-- The declared literal set of `Order.exec_mode` (lines 87-91). -/
def isExecMode (a : String) : Prop := a = "dark" ∨ a = "live"

instance (a : String) : Decidable (isExecMode a) := by
  unfold isExecMode; infer_instance

/-- The declared literal set of `Status.resp` (lines 127-136). -/
def isStatusResp (a : String) : Prop :=
  a = "pending" ∨ a = "open" ∨ a = "dark_open" ∨ a = "triggered" ∨
  a = "closed" ∨ a = "fill" ∨ a = "canceled" ∨ a = "error"

instance (a : String) : Decidable (isStatusResp a) := by
  unfold isStatusResp; infer_instance

/-- The `Order` message (lines 67-101): `action`, `exec_mode`, `oid`,
`symbol`, `account`, `price`, `size` required; `brokers` optional with
default `[]`.  Prices and sizes are modelled as exact rationals. -/
structure Order where
  action : String
  exec_mode : String
  oid : String
  symbol : String
  account : String
  price : ℚ
  size : ℚ
  brokers : List String
deriving DecidableEq, Repr

/-- The `Cancel` message (lines 104-112): `action` defaults to
`'cancel'`; `oid` and `symbol` required. -/
structure Cancel where
  action : String
  oid : String
  symbol : String
deriving DecidableEq, Repr

/-- An `Order | Cancel` back-reference payload (`Status.req`). -/
inductive ReqMsg
| order (o : Order)
| cancel (c : Cancel)
deriving DecidableEq, Repr

/-- The `Status` message (lines 121-157): `name` defaults to `'status'`;
`time_ns`, `oid`, `resp` required; `reqid`, `req`, `src` optional with
default `None`; `brokerd_msg` optional with default `{}`. -/
structure Status where
  name : String
  time_ns : Int
  oid : String
  resp : String
  reqid : Option Reqid
  req : Option ReqMsg
  src : Option String
  brokerd_msg : JVal

/-- Raw keyword arguments of an `Order(...)` construction: `none` is an
omitted field. -/
structure OrderInput where
  action : Option String
  exec_mode : Option String
  oid : Option String
  symbol : Option String
  account : Option String
  price : Option ℚ
  size : Option ℚ
  brokers : Option (List String)

/-- Raw keyword arguments of a `Status(...)` construction. -/
structure StatusInput where
  name : Option String
  time_ns : Option Int
  oid : Option String
  resp : Option String
  reqid : Option Reqid
  req : Option ReqMsg
  src : Option String
  brokerd_msg : Option JVal

/-- Modelled from the spec: validating construction of `Order` (the
`Struct` base class is not under `src/`).  Construction fails with a
`SchemaError` when a required field is missing or an enum-valued field is
outside its literal set; the optional `brokers` field defaults to `[]`. -/
def mkOrder (inp : OrderInput) : Except SchemaError Order :=
  match inp.action with
  | none => .error (.missingField "action")
  | some a =>
    if isOrderAction a then
      match inp.exec_mode with
      | none => .error (.missingField "exec_mode")
      | some em =>
        if isExecMode em then
          match inp.oid with
          | none => .error (.missingField "oid")
          | some oid =>
          match inp.symbol with
          | none => .error (.missingField "symbol")
          | some sym =>
          match inp.account with
          | none => .error (.missingField "account")
          | some acc =>
          match inp.price with
          | none => .error (.missingField "price")
          | some pr =>
          match inp.size with
          | none => .error (.missingField "size")
          | some sz =>
            .ok ⟨a, em, oid, sym, acc, pr, sz, inp.brokers.getD []⟩
        else .error (.badEnum "exec_mode" em)
    else .error (.badEnum "action" a)

/-- Modelled from the spec: validating construction of `Status` (the
`Struct` base class is not under `src/`).  `time_ns`, `oid` and `resp`
are required, `resp` is drawn from its literal set; `name` defaults to
`'status'`, `brokerd_msg` to `{}`, the rest to `None`. -/
def mkStatus (inp : StatusInput) : Except SchemaError Status :=
  match inp.time_ns with
  | none => .error (.missingField "time_ns")
  | some tns =>
  match inp.oid with
  | none => .error (.missingField "oid")
  | some oid =>
  match inp.resp with
  | none => .error (.missingField "resp")
  | some resp =>
    if isStatusResp resp then
      .ok ⟨inp.name.getD "status", tns, oid, resp, inp.reqid, inp.req,
        inp.src, inp.brokerd_msg.getD (.obj [])⟩
    else .error (.badEnum "resp" resp)

/-- C5: construction of taxonomy messages validates its input — a
successful construction implies every required field was supplied and
every enum-valued field lies in its declared literal set; a missing
required field or an out-of-set enum value yields a `SchemaError`, never
a message with a silent default; explicitly optional fields are exempt
and take their declared defaults. -/
theorem message_construction_validates :
    (∀ (inp : OrderInput) (o : Order), mkOrder inp = .ok o →
      isOrderAction o.action ∧ isExecMode o.exec_mode ∧
      inp.action = some o.action ∧ inp.exec_mode = some o.exec_mode ∧
      inp.oid = some o.oid ∧ inp.symbol = some o.symbol ∧
      inp.account = some o.account ∧ inp.price = some o.price ∧
      inp.size = some o.size) ∧
    (∀ inp, inp.action = none →
      mkOrder inp = .error (.missingField "action")) ∧
    (∀ inp a, inp.action = some a → ¬ isOrderAction a →
      mkOrder inp = .error (.badEnum "action" a)) ∧
    (∀ inp em, inp.exec_mode = some em → ¬ isExecMode em →
      ∃ e, mkOrder inp = .error e) ∧
    (∀ inp o, mkOrder inp = .ok o → inp.brokers = none → o.brokers = []) ∧
    (∀ (inp : StatusInput) (s : Status), mkStatus inp = .ok s →
      isStatusResp s.resp ∧ inp.time_ns = some s.time_ns ∧
      inp.oid = some s.oid ∧ inp.resp = some s.resp) ∧
    (∀ inp, inp.time_ns = none →
      mkStatus inp = .error (.missingField "time_ns")) ∧
    (∀ inp r, inp.resp = some r → ¬ isStatusResp r →
      ∃ e, mkStatus inp = .error e) ∧
    (∀ inp s, mkStatus inp = .ok s → inp.name = none →
      s.name = "status") := by
  refine ⟨?_, ?_, ?_, ?_, ?_, ?_, ?_, ?_, ?_⟩
  · intro inp o h
    simp only [mkOrder] at h
    repeat' split at h
    all_goals try (injection h with h)
    all_goals try subst h
    all_goals simp_all
  · intro inp h
    simp [mkOrder, h]
  · intro inp a ha hno
    simp [mkOrder, ha, hno]
  · intro inp em hem hno
    cases hA : inp.action with
    | none => exact ⟨.missingField "action", by simp [mkOrder, hA]⟩
    | some a =>
      by_cases hia : isOrderAction a
      · exact ⟨.badEnum "exec_mode" em, by simp [mkOrder, hA, hia, hem, hno]⟩
      · exact ⟨.badEnum "action" a, by simp [mkOrder, hA, hia]⟩
  · intro inp o h hbr
    simp only [mkOrder] at h
    repeat' split at h
    all_goals try (injection h with h)
    all_goals try subst h
    all_goals simp_all
  · intro inp s h
    simp only [mkStatus] at h
    repeat' split at h
    all_goals try (injection h with h)
    all_goals try subst h
    all_goals simp_all
  · intro inp h
    simp [mkStatus, h]
  · intro inp r hr hno
    cases hT : inp.time_ns with
    | none => exact ⟨.missingField "time_ns", by simp [mkStatus, hT]⟩
    | some tns =>
      cases hO : inp.oid with
      | none => exact ⟨.missingField "oid", by simp [mkStatus, hT, hO]⟩
      | some oid =>
        exact ⟨.badEnum "resp" r, by simp [mkStatus, hT, hO, hr, hno]⟩
  · intro inp s h hn
    simp only [mkStatus] at h
    repeat' split at h
    all_goals try (injection h with h)
    all_goals try subst h
    all_goals simp_all

/-- Witness for `message_construction_validates`: an `Order` with no
`action`, an `Order` with the out-of-set action `"hold"`, and a `Status`
with no `time_ns` each fail with the corresponding `SchemaError`. -/
theorem message_construction_validates_witness :
    mkOrder ⟨none, some "live", some "o1", some "xbtusd", some "acct",
        some 100, some 1, none⟩ = .error (.missingField "action") ∧
    mkOrder ⟨some "hold", some "live", some "o1", some "xbtusd",
        some "acct", some 100, some 1, none⟩
      = .error (.badEnum "action" "hold") ∧
    mkStatus ⟨none, none, some "o1", some "open", none, none, none, none⟩
      = .error (.missingField "time_ns") := by
  obtain ⟨h1, h2, h3, h4, h5, h6, h7, h8, h9⟩ := message_construction_validates
  exact ⟨h2 _ rfl, h3 _ "hold" rfl (by decide), h7 _ rfl⟩

/-! ## Order-routing dialog/ack binding

The `BrokerdOrderAck` schema is under `src/`
(`src/piker/clearing/_messages.py` lines 209-224); the routing state
machine consuming it (the ems engine) is not, so `on_brokerd_ack` is
modelled from the spec. -/

/-- The `BrokerdOrderAck` message (lines 209-224): `name` defaults to
`'ack'`, `reqid` (broker-allocated) and `oid` required, `account`
defaults to `''`. -/
structure BrokerdOrderAck where
  name : String := "ack"
  reqid : Reqid
  oid : String
  account : String := ""
deriving DecidableEq, Repr

/-- Modelled from the spec: the routing state machine's typed errors
relevant to ack handling (`UnknownDialog`, `RebindError`); the ems engine
is not under `src/`. -/
inductive EmsError
| unknownDialog
| rebindError
deriving DecidableEq, Repr

/-- The dialog table restricted to what ack handling touches: each open
dialog's `oid` mapped to its broker `reqid` binding (`none` while
unacknowledged). -/
abbrev DialogTable : Type := List (String × Option Reqid)

/-- Modelled from the spec: `on_brokerd_ack(BrokerdOrderAck)` of the
routing state machine (not under `src/`) — look up the dialog by `oid`
(`UnknownDialog` if absent), bind `reqid` if the dialog is unbound; a
second ack with the same `reqid` is a no-op, one with a different
`reqid` fails with `RebindError` leaving the table unchanged. -/
def onBrokerdAck (t : DialogTable) (ack : BrokerdOrderAck) :
    DialogTable × Option EmsError :=
  match alookup t ack.oid with
  | none => (t, some .unknownDialog)
  | some none => (aset t ack.oid (some ack.reqid), none)
  | some (some r) =>
    if r = ack.reqid then (t, none) else (t, some .rebindError)

lemma alookup_aset_ne {κ β : Type} [DecidableEq κ] :
    ∀ (l : List (κ × β)) (k k' : κ) (v : β), k ≠ k' →
      alookup (aset l k v) k' = alookup l k' := by
  intro l k k' v hne
  induction l with
  | nil => simp [aset, alookup, hne]
  | cons p rest ih =>
    obtain ⟨a, b⟩ := p
    by_cases hak : a = k
    · subst hak
      simp [aset, alookup, hne]
    · simp [aset, hak, alookup, ih]

/-- C6: once an ack binds `reqid` R to the dialog for `oid`, the binding
is immutable — a later ack for the same dialog with a different `reqid`
fails with `RebindError` and leaves the table unchanged, and no later ack
whatsoever changes the stored binding. -/
theorem ack_binding_immutable (t : DialogTable) (oid : String) (R : Reqid)
    (t1 : DialogTable)
    (hbind : onBrokerdAck t ⟨"ack", R, oid, ""⟩ = (t1, none)) :
    alookup t1 oid = some (some R) ∧
    (∀ r', r' ≠ R →
      onBrokerdAck t1 ⟨"ack", r', oid, ""⟩ = (t1, some .rebindError)) ∧
    (∀ (t' : DialogTable) (a : BrokerdOrderAck),
      alookup t' oid = some (some R) →
      alookup (onBrokerdAck t' a).1 oid = some (some R)) := by
  have hfst : alookup t1 oid = some (some R) := by
    cases h0 : alookup t oid with
    | none => simp [onBrokerdAck, h0] at hbind
    | some b =>
      cases b with
      | none =>
        simp only [onBrokerdAck, h0] at hbind
        have ht1 : aset t oid (some R) = t1 := congrArg Prod.fst hbind
        rw [← ht1]
        exact alookup_aset t oid (some R)
      | some r =>
        simp only [onBrokerdAck, h0] at hbind
        by_cases hr : r = R
        · subst hr
          simp at hbind
          rw [← hbind]
          exact h0
        · simp [hr] at hbind
  refine ⟨hfst, ?_, ?_⟩
  · intro r' hne
    simp [onBrokerdAck, hfst, hne.symm]
  · intro t' a hR
    by_cases hoid : a.oid = oid
    · rw [onBrokerdAck, hoid, hR]
      by_cases hq : R = a.reqid <;> simp [hq, hR]
    · cases h0 : alookup t' a.oid with
      | none => simp [onBrokerdAck, h0, hR]
      | some b =>
        cases b with
        | none => simp [onBrokerdAck, h0, alookup_aset_ne t' a.oid oid _ hoid, hR]
        | some r =>
          by_cases hq : r = a.reqid <;> simp [onBrokerdAck, h0, hq, hR]

/-- Witness for `ack_binding_immutable`: a concrete table where dialog
`"a1"` is open and unbound; the first ack binds `"b1"`, after which an
ack carrying `"b2"` is rejected with `RebindError`. -/
theorem ack_binding_immutable_witness :
    alookup ([("a1", some (Reqid.str "b1"))] : DialogTable) "a1"
      = some (some (Reqid.str "b1")) ∧
    (∀ r', r' ≠ Reqid.str "b1" →
      onBrokerdAck [("a1", some (Reqid.str "b1"))] ⟨"ack", r', "a1", ""⟩
        = ([("a1", some (Reqid.str "b1"))], some .rebindError)) ∧
    (∀ (t' : DialogTable) (a : BrokerdOrderAck),
      alookup t' "a1" = some (some (Reqid.str "b1")) →
      alookup (onBrokerdAck t' a).1 "a1" = some (some (Reqid.str "b1"))) :=
  ack_binding_immutable [("a1", none)] "a1" (Reqid.str "b1")
    [("a1", some (Reqid.str "b1"))] (by decide)

end Piker
